import Mathlib

/-!
Shallow embedding of the catalog-to-document renderer in
`src/frontend/create-prompt_HeroUI.js`.

The script loads a JSON catalog `{ components: [...] }`, builds a single
markdown string `mdxContent` (a fixed preamble followed by one block per
component, appended in a `forEach` loop), and writes it out.  The data
model, the fixed preamble and every template literal below are transcribed
directly from the source.
-/

/-- One row of the properties table of a component (source: objects in
`component.props`).  `default` and `options` are optional fields of the
JSON record, hence `Option`. -/
structure PropertyRecord where
  name : String
  type : String
  default : Option String
  options : Option (List String)
  description : String

/-- One entry of `data.components`.  The source fields named after the
keywords of Lean are renamed: the source field holding the code snippet of
the module inclusion line is `jsImport`, the usage snippet is `jsExample`. -/
structure ComponentRecord where
  name : String
  description : String
  jsImport : String
  props : List PropertyRecord
  jsExample : String

/-- The top-level catalog: `{ components: ComponentRecord[] }`. -/
structure Catalog where
  components : List ComponentRecord

/-- Character-level semantics of the source call replacing the regex
`/\|/g` in `prop.type`: each occurrence of the character `|` is replaced
by the two-character sequence `\|`; all other characters are kept. -/
def escList : List Char → List Char
  | [] => []
  | c :: cs => (if c = '|' then ['\\', '|'] else [c]) ++ escList cs

/-- String form of the global pipe-escaping replace applied to `prop.type`. -/
def escapePipes (s : String) : String := ⟨escList s.data⟩

/-- Semantics of JavaScript `Array.prototype.join(sep)` on an array of
strings: empty array gives `""`, otherwise elements interleaved with
`sep`. -/
def jsJoin (sep : String) : List String → String
  | [] => ""
  | [a] => a
  | a :: rest => a ++ sep ++ jsJoin sep rest

/-- The Default cell: the source tests the truthiness of `prop.default`
and renders either the value in inline-code markers or the empty string.
JavaScript truthiness makes both an absent field and the empty string
falsy, so both render the empty cell. -/
def defaultCell : Option String → String
  | none => ""
  | some s => if s = "" then "" else "`" ++ s ++ "`"

/-- The Options cell: the source tests the truthiness of `prop.options`
and renders either the array joined with the three-character separator
backtick-comma-space-backtick, wrapped in backticks, or the empty string.
A present array is always truthy in JavaScript (even when empty), so any
present `options` is wrapped in backticks and joined. -/
def optionsCell : Option (List String) → String
  | none => ""
  | some os => "`" ++ jsJoin "`, `" os ++ "`"

/-- One table row, transcribed from the template literal on line 226 of the
source. -/
def renderPropRow (p : PropertyRecord) : String :=
  "| `" ++ p.name ++ "` | `" ++ escapePipes p.type ++ "` | "
    ++ defaultCell p.default ++ " | " ++ optionsCell p.options
    ++ " | " ++ p.description ++ " |"

/-- The part of the per-component template literal before the interpolated
table rows (source lines 209-226). -/
def componentHead (c : ComponentRecord) : String :=
  "\n## " ++ c.name ++ "\n\n<details>\n<summary>View details for " ++ c.name
    ++ "</summary>\n\n**Description:** " ++ c.description
    ++ "\n\n**Import:**\n```typescript\n" ++ c.jsImport
    ++ "\n```\n\n**Props:**\n\n| Name | Type | Default | Options | Description |\n| --- | --- | --- | --- | --- |\n"

/-- The part of the per-component template literal after the interpolated
table rows (source lines 226-235). -/
def componentTail (c : ComponentRecord) : String :=
  "\n\n**Example:**\n```typescript\n" ++ c.jsExample
    ++ "\n```\n\n</details>\n---\n"

/-- One appended block of the `forEach` body: head, then the rows mapped
over `component.props` and joined with newlines, then tail. -/
def renderComponent (c : ComponentRecord) : String :=
  componentHead c ++ jsJoin "\n" (c.props.map renderPropRow) ++ componentTail c

/-- The fixed preamble: the initial value of `mdxContent` (source lines
6-206), transcribed verbatim. -/
def preamble : String := "---\ntitle: \x27Hero UI Component Prompt Guide\x27\ndescription: \x27A guide for AI agents on how to use Hero UI components.\x27\n---\n\n# Hero UI Component Prompt Guide\n\nYou are a senior frontend engineer tasked with building a web page using the Hero UI component library. Your primary goal is to create beautiful, responsive, and maintainable user interfaces.\n\n## Your Workflow\n\n1.  **Understand the Goal:** First, fully understand the user\x27s request.\n2.  **Plan the Layout:** Before writing any code, plan the overall layout of the page. Think about the structure, hierarchy, and how different sections will fit together. Follow the Design Strategy rules below.\n3.  **Component Selection:** Based on your layout plan, select the most appropriate Hero UI components from the documentation below. **You must prioritize using Hero UI components for all parts of the page wherever possible.**\n4.  **Prop Assignment:** For each component, decide which props are necessary to achieve the desired functionality and appearance. You have all the documentation you need; do not ask the user for props. Make educated decisions based on the context.\n5.  **Code Generation:** Write the complete React code for the page, importing all necessary components from `@heroui/react`.\n\n## Design Strategy\n\n### Responsive Design: Mobile-First\nYou **must** design mobile-first. Start with the base styles for mobile screens and then use Tailwind\x27s responsive breakpoints (`sm:`, `md:`, `lg:`, `xl:`) to adapt the layout for larger screens.\n\n### Layout: Flexbox & Grid\nYou **must** always think in terms of Flexbox and Grid for layouts.\n*   **Grid:** Use for major, large-scale page layouts and structures.\n*   **Flexbox:** Use for smaller component arrangements and alignments within a container.\n\n## Styling Rules\n\n*   **Always Use Semantic Colors:** Semantic colors are available for most components (via the `color` prop) and utility classes (`bg-primary`, `text-danger-500`, etc.). You **must** use them at all times to ensure theme consistency.\n*   **Prioritize the `color` Prop:** When a component supports a `color` prop, it\x27s the preferred way to apply semantic colors.\n*   **Use Semantic Color Classes:** When customizing with `className` or `classNames`, use theme-aware semantic color utilities.\n*   **No Absolute Colors:** NEVER use absolute or specific color classes (e.g., `bg-red-500`, `text-green-600`). This breaks the theme and creates inconsistent UI.\n\n---\n\n## Color System Deep Dive\n\nTo effectively use Hero UI\x27s color system, it\x27s important to understand its structure. The colors are defined by the following TypeScript types:\n\n```typescript\ntype ColorScale = \x7b\n  50: string;\n  100: string;\n  200: string;\n  300: string;\n  400: string;\n  500: string;\n  600: string;\n  700: string;\n  800: string;\n  900: string;\n  foreground: string; // contrast color\n  DEFAULT: string;\n\x7d;\n\ntype BaseColors = \x7b\n  background: ColorScale; // the page background color\n  foreground: ColorScale; // the page text color\n  divider: ColorScale; // used for divider and single line border\n  overlay: ColorScale; // used for modal, popover, etc.\n  focus: ColorScale; // used for focus state outline\n  content1: ColorScale; // used for card, modal, popover, etc.\n  content2: ColorScale;\n  content3: ColorScale;\n  content4: ColorScale;\n\x7d;\n\n// brand colors\ntype ThemeColors = BaseColors & \x7b\n  default: ColorScale;\n  primary: ColorScale;\n  secondary: ColorScale;\n  success: ColorScale;\n  warning: ColorScale;\n  danger: ColorScale;\n\x7d;\n```\n\n### When to Use Which Colors\n\n*   **Base Colors (`background`, `foreground`, `content1-4`, etc.):** Use these for general layout and structural elements. For example, `bg-background` for the page background, `text-foreground` for body text, and `bg-content1` for card backgrounds.\n*   **Theme Colors (`primary`, `secondary`, `success`, etc.):** Use these for interactive elements, branding, and to convey status. For example, `primary` for main action buttons, `danger` for error messages, and `success` for confirmation indicators.\n\n---\n\n## Colors via `color` Prop\n\nHero UI uses a semantic color system. For components that support it, the easiest way to apply color is with the `color` prop.\n\n### Available Colors\n\n*   `default`\n*   `primary`\n*   `secondary`\n*   `success`\n*   `warning`\n*   `danger`\n\n### How to Use\n\n```typescript\n<Button color=\"primary\">Primary Button</Button>\n<Chip color=\"success\">Success Chip</Chip>\n<Spinner color=\"danger\" />\n```\n\n---\n\n## Colors via `className`\n\nFor more granular control, you can use semantic color utility classes directly. These classes are theme-aware and will adapt to light/dark mode.\n\n### Text Color\n- Apply primary text: `<p className=\"text-primary\">...</p>`\n- Shade variant: `<p className=\"text-primary-600\">...</p>`\n\n### Background Color\n- Solid background: `<div className=\"bg-success\">...</div>`\n- With shade: `<div className=\"bg-success-100\">...</div>`\n\n### Border Color\n- Semantic border: `<div className=\"border border-warning\">...</div>`\n- Shade border: `<div className=\"border border-warning-400\">...</div>`\n\n### Hover/Focus States\n- Hover background: `<button className=\"hover:bg-secondary-200\">...</button>`\n- Focus ring: `<input className=\"focus:outline-none focus:ring-2 focus:ring-primary-500\" />`\n\n### Components & Slots\n- Button with color prop: `<Button color=\"primary\">Click</Button>`\n- Slot override: `<CircularProgress classNames=\x7b\x7b indicator: \x27stroke-danger-500\x27 \x7d\x7d />`\n\n### Theme-Scoped Styling\n- Apply styles based on theme: `<div className=\"dark:bg-default-800\">...</div>`\n\n**Note:** Semantic colors are available as utilities like `text-*`, `bg-*`, `border-*` with shades 50\u00e2\u20ac\u201c900. You can also use CSS variables like `var(--heroui-primary-500)`.\n\n---\n\n## Overriding Styles\n\nYou can override the default styles of a component by passing your own class names to the `className` prop, or to the `classNames` prop for components with slots.\n\n### Overriding a component with `className`\n\nFor components without slots, you can use the `className` prop to apply custom styles.\n\n```typescript\nimport \x7bButton\x7d from \"@heroui/react\";\n\nexport default function App() \x7b\n  return (\n    <Button\n      disableRipple\n      className=\"relative overflow-visible rounded-full hover:-translate-y-1 px-12 shadow-sm bg-background/30 after:content-[\x27\x27] after:absolute after:rounded-full after:inset-0 after:bg-background/40 after:z-[-1] after:transition after:duration-500! hover:after:scale-150 hover:after:opacity-0\"\n      size=\"lg\"\n    >\n      Press me\n    </Button>\n  );\n\x7d\n```\n\n### What is a Slot?\n\nA slot is a part of a component that can be styled separately using the `classNames` prop. For example, the `CircularProgress` component has slots like `track`, `indicator`, and `value` that can each be styled independently.\n\nYou will find a `Slots` section in the documentation of each component that has slots.\n\n### How to Use Slots\n\nTo style a specific slot, pass an object to the `classNames` prop where the key is the name of the slot and the value is a string of class names.\n\n```typescript\nimport \x7bCircularProgress, Card, CardBody\x7d from \"@heroui/react\";\n\nexport default function App() \x7b\n  return (\n    <Card className=\"w-[240px] h-[240px] bg-linear-to-br from-violet-500 to-fuchsia-500\">\n      <CardBody className=\"justify-center items-center py-0\">\n        <CircularProgress\n          classNames=\x7b\x7b\n            svg: \"w-36 h-36 drop-shadow-md\",\n            indicator: \"stroke-white\",\n            track: \"stroke-white/10\",\n            value: \"text-3xl font-semibold text-white\",\n          \x7d\x7d\n          value=\x7b70\x7d\n          strokeWidth=\x7b4\x7d\n          showValueLabel=\x7btrue\x7d\n        />\n      </CardBody>\n    </Card>\n  );\n\x7d\n```\n\n---\n\n"

/-- The whole render: `mdxContent` starts as the preamble and the
`forEach` loop appends one block per component, in catalog order. -/
def renderCatalog (cat : Catalog) : String :=
  cat.components.foldl (fun acc c => acc ++ renderComponent c) preamble

/-- Plain concatenation of a list of blocks, in order. -/
def concatBlocks (l : List String) : String := l.foldr (fun a b => a ++ b) ""

/-- Spec-side escaping, following the spec words: every occurrence of the
table-delimiter character replaced by the escaped form. Written as a fold
so it can be compared with the transcription of the source. -/
def escapeSpec (s : String) : String :=
  s.data.foldr (fun c acc => (if c = '|' then "\\|" else String.singleton c) ++ acc) ""

/-- Spec-side Options cell for a present, non-empty `options` field: all
allowed values, each wrapped in inline-code markers, joined with a comma
separator. -/
def optionsSpecCell (os : List String) : String :=
  jsJoin ", " (os.map (fun v => "`" ++ v ++ "`"))

/-- Number of unescaped occurrences of `|` in the character list, where an
occurrence is escaped when the immediately preceding character is a
backslash. `prev` is the character preceding the list (a sentinel for the
first character). -/
def upGo (prev : Char) : List Char → Nat
  | [] => 0
  | c :: cs => (if c = '|' ∧ prev ≠ '\\' then 1 else 0) + upGo c cs

/-- Number of unescaped `|` in a string (the first character has no
predecessor; the sentinel is a space). A markdown table row with n cells
has n + 1 delimiter pipes, so five logical columns means six unescaped
pipes. -/
def unescapedPipes (s : String) : Nat := upGo ' ' s.data

/-! Raw model for totality: the same templates evaluated the way JavaScript
evaluates them when fields may be missing (`undefined`).  Interpolating an
undefined value into a template literal yields the string "undefined" and
does not throw; calling a method on an undefined value throws, which is
modelled by `none`.  The conditional cells test truthiness, so a missing
`default`/`options` simply renders the empty cell. -/

/-- One raw JSON property: every field may be absent. -/
structure RawPropertyRecord where
  name : Option String
  type : Option String
  default : Option String
  options : Option (List String)
  description : Option String

/-- One raw JSON component: every field may be absent. -/
structure RawComponentRecord where
  name : Option String
  description : Option String
  jsImport : Option String
  props : Option (List RawPropertyRecord)
  jsExample : Option String

/-- The raw top-level JSON value: `components` may be absent. -/
structure RawCatalog where
  components : Option (List RawComponentRecord)

/-- JavaScript template interpolation of a possibly-undefined string. -/
def jsShow : Option String → String
  | none => "undefined"
  | some s => s

/-- The row template on a raw property: `prop.type.replace(...)` throws a
TypeError when `type` is absent (modelled by `none`); every other field of
the row tolerates absence. -/
def renderRawPropRow (p : RawPropertyRecord) : Option String :=
  p.type.map (fun t =>
    "| `" ++ jsShow p.name ++ "` | `" ++ escapePipes t ++ "` | "
      ++ defaultCell p.default ++ " | " ++ optionsCell p.options
      ++ " | " ++ jsShow p.description ++ " |")

/-- Rows of a raw component, as evaluated by the map over
`component.props`: the first row that throws aborts the whole render. -/
def renderRawRows : List RawPropertyRecord → Option (List String)
  | [] => some []
  | p :: ps =>
    match renderRawPropRow p, renderRawRows ps with
    | some r, some rs => some (r :: rs)
    | _, _ => none

/-- Raw counterpart of `componentHead`. -/
def rawComponentHead (c : RawComponentRecord) : String :=
  "\n## " ++ jsShow c.name ++ "\n\n<details>\n<summary>View details for " ++ jsShow c.name
    ++ "</summary>\n\n**Description:** " ++ jsShow c.description
    ++ "\n\n**Import:**\n```typescript\n" ++ jsShow c.jsImport
    ++ "\n```\n\n**Props:**\n\n| Name | Type | Default | Options | Description |\n| --- | --- | --- | --- | --- |\n"

/-- Raw counterpart of `componentTail`. -/
def rawComponentTail (c : RawComponentRecord) : String :=
  "\n\n**Example:**\n```typescript\n" ++ jsShow c.jsExample
    ++ "\n```\n\n</details>\n---\n"

/-- One raw block: `component.props.map` throws when `props` is absent. -/
def renderRawComponent (c : RawComponentRecord) : Option String :=
  match c.props with
  | none => none
  | some ps =>
    match renderRawRows ps with
    | none => none
    | some rows => some (rawComponentHead c ++ jsJoin "\n" rows ++ rawComponentTail c)

/-- All raw blocks, aborting at the first throwing component. -/
def renderRawComponents : List RawComponentRecord → Option (List String)
  | [] => some []
  | c :: cs =>
    match renderRawComponent c, renderRawComponents cs with
    | some b, some bs => some (b :: bs)
    | _, _ => none

/-- The whole raw render: `data.components.forEach` throws when
`components` is absent; otherwise the blocks are appended to the preamble
in order. -/
def renderRawCatalog (rc : RawCatalog) : Option String :=
  match rc.components with
  | none => none
  | some cs =>
    match renderRawComponents cs with
    | none => none
    | some blocks => some (blocks.foldl (fun acc b => acc ++ b) preamble)

/-- A structurally valid raw property has `name`, `type` and
`description`. -/
def ValidProp (p : RawPropertyRecord) : Prop :=
  p.name.isSome = true ∧ p.type.isSome = true ∧ p.description.isSome = true

/-- A structurally valid raw component has `name`, `description`, `import`,
`props` and `example`, and structurally valid properties. -/
def ValidComponent (c : RawComponentRecord) : Prop :=
  c.name.isSome = true ∧ c.description.isSome = true ∧ c.jsImport.isSome = true
    ∧ c.jsExample.isSome = true ∧ c.props.isSome = true
    ∧ ∀ p ∈ c.props.getD [], ValidProp p

/-- A structurally valid raw catalog has `components`, all structurally
valid. -/
def ValidCatalog (rc : RawCatalog) : Prop :=
  rc.components.isSome = true ∧ ∀ c ∈ rc.components.getD [], ValidComponent c

/-- The typed record a structurally valid raw property denotes. -/
def toProp (p : RawPropertyRecord) : PropertyRecord :=
  ⟨jsShow p.name, p.type.getD "", p.default, p.options, jsShow p.description⟩

/-- The typed record a structurally valid raw component denotes. -/
def toComponent (c : RawComponentRecord) : ComponentRecord :=
  ⟨jsShow c.name, jsShow c.description, jsShow c.jsImport,
    (c.props.getD []).map toProp, jsShow c.jsExample⟩

/-- The typed catalog a structurally valid raw catalog denotes. -/
def toCatalog (rc : RawCatalog) : Catalog :=
  ⟨(rc.components.getD []).map toComponent⟩

/-- A property whose `type` and `description` both contain the table
delimiter. -/
def pipeDescRecord : PropertyRecord := ⟨"n", "a|b", none, none, "x|y"⟩

/-- The example record of the spec: type `default | primary`, default
`default`, options `default`/`primary`. -/
def exampleRecord : PropertyRecord :=
  ⟨"color", "default | primary", some "default", some ["default", "primary"], "The color"⟩

/-- A property whose `default` is present but is the empty string. -/
def emptyDefaultRecord : PropertyRecord := ⟨"size", "string", some "", none, "s"⟩

/-- The same property with `default` absent. -/
def absentDefaultRecord : PropertyRecord := ⟨"size", "string", none, none, "s"⟩

/-- A property whose `options` is present but is the empty sequence. -/
def emptyOptionsRecord : PropertyRecord := ⟨"variant", "string", none, some [], "v"⟩

/-- A component with an empty `props` sequence. -/
def noPropsRecord : ComponentRecord := ⟨"Spacer", "A spacer.", "code", [], "snippet"⟩

/-- A small concrete catalog. -/
def sampleCatalog : Catalog := ⟨[⟨"Badge", "A badge.", "code", [exampleRecord], "snippet"⟩]⟩

/-- A raw property with all required fields present. -/
def rawSampleProp : RawPropertyRecord :=
  ⟨some "color", some "default | primary", some "default",
    some ["default", "primary"], some "The color"⟩

/-- A raw component with all required fields present. -/
def rawSampleComponent : RawComponentRecord :=
  ⟨some "Badge", some "A badge.", some "code", some [rawSampleProp], some "snippet"⟩

/-- A raw catalog with all required fields present. -/
def rawSampleCatalog : RawCatalog := ⟨some [rawSampleComponent]⟩


theorem jsJoin_cons₂ (sep a b : String) (t : List String) :
    jsJoin sep (a :: b :: t) = a ++ sep ++ jsJoin sep (b :: t) := rfl

theorem upGo_cons (prev c : Char) (cs : List Char) :
    upGo prev (c :: cs) = (if c = '|' ∧ prev ≠ '\\' then 1 else 0) + upGo c cs := rfl

theorem upGo_append (xs : List Char) : ∀ (prev : Char) (ys : List Char),
    upGo prev (xs ++ ys) = upGo prev xs + upGo (xs.getLastD prev) ys := by
  induction xs with
  | nil => intro prev ys; simp [upGo]
  | cons c cs ih =>
    intro prev ys
    rw [List.cons_append, upGo_cons, upGo_cons, ih c ys, List.getLastD_cons,
      Nat.add_assoc]

theorem upGo_of_no_pipe (xs : List Char) (h : '|' ∉ xs) (prev : Char) :
    upGo prev xs = 0 := by
  induction xs generalizing prev with
  | nil => rfl
  | cons c cs ih =>
    simp only [List.mem_cons, not_or] at h
    have hc : c ≠ '|' := fun hh => h.1 hh.symm
    rw [upGo_cons, if_neg (fun hh => hc hh.1), ih h.2, Nat.add_zero]

theorem upGo_escList (xs : List Char) : ∀ prev : Char, upGo prev (escList xs) = 0 := by
  induction xs with
  | nil => intro prev; rfl
  | cons c cs ih =>
    intro prev
    by_cases hc : c = '|'
    · subst hc
      show upGo prev ('\\' :: '|' :: escList cs) = 0
      rw [upGo_cons, upGo_cons, if_neg (fun hh => absurd hh.1 (by decide)),
        if_neg (fun hh => hh.2 rfl), ih, Nat.add_zero]
    · show upGo prev ((if c = '|' then ['\\', '|'] else [c]) ++ escList cs) = 0
      rw [if_neg hc, List.singleton_append, upGo_cons,
        if_neg (fun hh => hc hh.1), ih, Nat.add_zero]

theorem upGo_prev_irrel (xs : List Char) (h : xs.head? ≠ some '|') (p q : Char) :
    upGo p xs = upGo q xs := by
  cases xs with
  | nil => rfl
  | cons c cs =>
    have hc : c ≠ '|' := fun hh => h (by rw [hh]; rfl)
    rw [upGo_cons, upGo_cons, if_neg (fun hh => hc hh.1), if_neg (fun hh => hc hh.1)]

theorem no_pipe_defaultCell (d : Option String)
    (h : ∀ s, d = some s → '|' ∉ s.data) : '|' ∉ (defaultCell d).data := by
  cases d with
  | none => simp [defaultCell]
  | some s =>
    by_cases hs : s = ""
    · subst hs; simp [defaultCell]
    · have hmem := h s rfl
      simp only [defaultCell, if_neg hs, String.data_append, List.mem_append]
      intro hcon
      rcases hcon with hcon | hcon
      · rcases hcon with hcon | hcon
        · exact absurd hcon (by decide)
        · exact hmem hcon
      · exact absurd hcon (by decide)

theorem no_pipe_jsJoin (sep : String) (hsep : '|' ∉ sep.data) :
    ∀ os : List String, (∀ o ∈ os, '|' ∉ o.data) → '|' ∉ (jsJoin sep os).data := by
  intro os
  induction os with
  | nil => intro _; simp [jsJoin]
  | cons a t ih =>
    intro h
    cases t with
    | nil => exact h a (by simp) 
    | cons b t' =>
      rw [jsJoin_cons₂]
      simp only [String.data_append, List.mem_append]
      intro hcon
      rcases hcon with (hcon | hcon) | hcon
      · exact h a (by simp) hcon
      · exact hsep hcon
      · exact ih (fun o ho => h o (List.mem_cons_of_mem a ho)) hcon

theorem no_pipe_optionsCell (o : Option (List String))
    (h : ∀ os, o = some os → ∀ x ∈ os, '|' ∉ x.data) :
    '|' ∉ (optionsCell o).data := by
  cases o with
  | none => simp [optionsCell]
  | some os =>
    simp only [optionsCell, String.data_append, List.mem_append]
    intro hcon
    rcases hcon with (hcon | hcon) | hcon
    · exact absurd hcon (by decide)
    · exact no_pipe_jsJoin "`, `" (by decide) os (h os rfl) hcon
    · exact absurd hcon (by decide)

theorem escapeSpec_eq (s : String) : escapeSpec s = escapePipes s := by
  apply String.ext
  show (s.data.foldr (fun c acc => (if c = '|' then "\\|" else String.singleton c) ++ acc) "").data
      = escList s.data
  induction s.data with
  | nil => rfl
  | cons c t ih =>
    show ((if c = '|' then "\\|" else String.singleton c) ++ _).data = _
    rw [String.data_append, ih]
    by_cases hc : c = '|'
    · subst hc; rfl
    · show _ = (if c = '|' then ['\\', '|'] else [c]) ++ escList t
      rw [if_neg hc, if_neg hc]
      rfl

theorem upGo_seg1 : ∀ p : Char, upGo p (("` | `" : String).data) = 1 := by
  intro p
  rw [upGo_prev_irrel _ (by decide) p ' ']
  decide

theorem upGo_seg2 : ∀ p : Char, upGo p (("` | " : String).data) = 1 := by
  intro p
  rw [upGo_prev_irrel _ (by decide) p ' ']
  decide

theorem upGo_seg3 : ∀ p : Char, upGo p ((" | " : String).data) = 1 := by
  intro p
  rw [upGo_prev_irrel _ (by decide) p ' ']
  decide

theorem upGo_seg4 : ∀ p : Char, upGo p ((" |" : String).data) = 1 := by
  intro p
  rw [upGo_prev_irrel _ (by decide) p ' ']
  decide

theorem unescapedPipes_row (nm ty df oc ds : String)
    (hn : '|' ∉ nm.data) (hd : '|' ∉ df.data) (ho : '|' ∉ oc.data)
    (hs : '|' ∉ ds.data) :
    unescapedPipes ("| `" ++ nm ++ "` | `" ++ escapePipes ty ++ "` | "
      ++ df ++ " | " ++ oc ++ " | " ++ ds ++ " |") = 6 := by
  show upGo ' ' _ = 6
  rw [String.data_append, String.data_append, String.data_append, String.data_append,
    String.data_append, String.data_append, String.data_append, String.data_append,
    String.data_append, String.data_append]
  rw [upGo_append, upGo_append, upGo_append, upGo_append, upGo_append,
    upGo_append, upGo_append, upGo_append, upGo_append, upGo_append]
  rw [show (escapePipes ty).data = escList ty.data from rfl]
  rw [upGo_of_no_pipe nm.data hn, upGo_of_no_pipe df.data hd,
    upGo_of_no_pipe oc.data ho, upGo_of_no_pipe ds.data hs,
    upGo_escList ty.data]
  rw [upGo_seg1, upGo_seg2, upGo_seg3, upGo_seg3, upGo_seg4]
  rw [show upGo ' ' (("| `" : String).data) = 1 from by decide]

theorem concatBlocks_cons (a : String) (l : List String) :
    concatBlocks (a :: l) = a ++ concatBlocks l := rfl

theorem foldl_append_blocks (l : List ComponentRecord) : ∀ init : String,
    l.foldl (fun acc c => acc ++ renderComponent c) init
      = init ++ concatBlocks (l.map renderComponent) := by
  induction l with
  | nil => intro init; exact (String.append_empty init).symm
  | cons c t ih =>
    intro init
    show t.foldl _ (init ++ renderComponent c) = _
    rw [ih (init ++ renderComponent c), List.map_cons, concatBlocks_cons,
      String.append_assoc]

theorem jsJoin_wrap (t : List String) : ∀ a : String,
    "`" ++ jsJoin "`, `" (a :: t) ++ "`"
      = jsJoin ", " ((a :: t).map (fun v => "`" ++ v ++ "`")) := by
  induction t with
  | nil => intro a; rfl
  | cons b t' ih =>
    intro a
    rw [jsJoin_cons₂]
    have h2 : jsJoin ", " ((a :: b :: t').map (fun v => "`" ++ v ++ "`"))
        = ("`" ++ a ++ "`") ++ ", "
          ++ jsJoin ", " ((b :: t').map (fun v => "`" ++ v ++ "`")) := rfl
    rw [h2, ← ih b]
    apply String.ext
    simp only [String.data_append, List.append_assoc, List.cons_append,
      List.nil_append]

theorem escList_count (xs : List Char) : (escList xs).count '|' = xs.count '|' := by
  induction xs with
  | nil => rfl
  | cons c cs ih =>
    by_cases hc : c = '|'
    · subst hc
      show (('\\' :: '|' :: escList cs).count '|') = _
      rw [List.count_cons, List.count_cons, List.count_cons, ih]
      simp
    · show (((if c = '|' then ['\\', '|'] else [c]) ++ escList cs).count '|') = _
      rw [if_neg hc, List.singleton_append, List.count_cons, List.count_cons, ih]

theorem escList_length (xs : List Char) :
    (escList xs).length = xs.length + xs.count '|' := by
  induction xs with
  | nil => rfl
  | cons c cs ih =>
    by_cases hc : c = '|'
    · subst hc
      show ('\\' :: '|' :: escList cs).length = _
      rw [List.length_cons, List.length_cons, ih, List.count_cons, List.length_cons]
      simp
      omega
    · show ((if c = '|' then ['\\', '|'] else [c]) ++ escList cs).length = _
      rw [if_neg hc, List.singleton_append, List.length_cons, ih,
        List.count_cons, List.length_cons]
      have : ¬ (c = '|') := hc
      simp [this]
      omega

theorem renderRawPropRow_valid (p : RawPropertyRecord) (h : ValidProp p) :
    renderRawPropRow p = some (renderPropRow (toProp p)) := by
  obtain ⟨-, ht, -⟩ := h
  cases hty : p.type with
  | none => rw [hty] at ht; simp at ht
  | some t =>
    simp only [renderRawPropRow, hty, Option.map_some', renderPropRow, toProp,
      Option.getD_some]

theorem renderRawRows_valid : ∀ ps : List RawPropertyRecord,
    (∀ p ∈ ps, ValidProp p) →
    renderRawRows ps = some (ps.map (renderPropRow ∘ toProp)) := by
  intro ps
  induction ps with
  | nil => intro _; rfl
  | cons p t ih =>
    intro h
    show (match renderRawPropRow p, renderRawRows t with
      | some r, some rs => some (r :: rs)
      | _, _ => none) = _
    rw [renderRawPropRow_valid p (h p (by simp)),
      ih (fun q hq => h q (List.mem_cons_of_mem p hq))]
    rfl

theorem renderRawComponent_valid (c : RawComponentRecord) (h : ValidComponent c) :
    renderRawComponent c = some (renderComponent (toComponent c)) := by
  obtain ⟨-, -, -, -, hp, hv⟩ := h
  cases hps : c.props with
  | none => rw [hps] at hp; simp at hp
  | some ps =>
    rw [hps] at hv
    have hrows := renderRawRows_valid ps (fun q hq => hv q hq)
    have step1 : renderRawComponent c
        = (match renderRawRows ps with
          | none => none
          | some rows =>
            some (rawComponentHead c ++ jsJoin "\n" rows ++ rawComponentTail c)) := by
      unfold renderRawComponent
      rw [hps]
    rw [step1, hrows]
    show some _ = some _
    congr 1
    simp only [renderComponent, toComponent, hps, Option.getD_some, List.map_map]
    rfl

theorem renderRawComponents_valid : ∀ cs : List RawComponentRecord,
    (∀ c ∈ cs, ValidComponent c) →
    renderRawComponents cs = some (cs.map (renderComponent ∘ toComponent)) := by
  intro cs
  induction cs with
  | nil => intro _; rfl
  | cons c t ih =>
    intro h
    show (match renderRawComponent c, renderRawComponents t with
      | some b, some bs => some (b :: bs)
      | _, _ => none) = _
    rw [renderRawComponent_valid c (h c (by simp)),
      ih (fun q hq => h q (List.mem_cons_of_mem c hq))]
    rfl

/-- Helper: a backtick-wrapped string is never empty. -/
theorem wrap_ne_empty (s : String) : "`" ++ s ++ "`" ≠ "" := by
  intro h
  have hlen := congrArg (fun t => t.data.length) h
  simp only [String.data_append, List.length_append] at hlen
  rw [show (("`" : String).data).length = 1 from by decide,
    show (("" : String).data).length = 0 from by decide] at hlen
  omega

/-- Claim C1, counterexample: the five-column property quantified over all
PropertyRecords fails, because the description field is not escaped.  For
the record with type `a|b` and description `x|y` the rendered row has
seven unescaped pipes, not six. -/
theorem c1_counterexample :
    '|' ∈ pipeDescRecord.type.data
      ∧ unescapedPipes (renderPropRow pipeDescRecord) ≠ 6 := by decide

/-- Claim C1 (amended): the Type cell is the literal type wrapped in
inline-code markers with every `|` replaced by `\|`; and for a
PropertyRecord whose type contains `|`, provided the name, default,
options values and description contain no `|` of their own, the rendered
row has exactly six unescaped pipes, i.e. five logical columns; the type
`default | primary` escapes to `default \| primary`. -/
theorem c1_five_columns (p : PropertyRecord)
    (hn : '|' ∉ p.name.data)
    (hd : ∀ s, p.default = some s → '|' ∉ s.data)
    (ho : ∀ os, p.options = some os → ∀ x ∈ os, '|' ∉ x.data)
    (hs : '|' ∉ p.description.data) :
    unescapedPipes (renderPropRow p) = 6
      ∧ (∃ u v, renderPropRow p = u ++ ("`" ++ escapeSpec p.type ++ "`") ++ v)
      ∧ escapePipes "default | primary" = "default \\| primary" := by
  refine ⟨?_, ⟨"| `" ++ p.name ++ "` | ",
    " | " ++ defaultCell p.default ++ " | " ++ optionsCell p.options
      ++ " | " ++ p.description ++ " |", ?_⟩, by decide⟩
  · exact unescapedPipes_row p.name p.type (defaultCell p.default)
      (optionsCell p.options) p.description hn (no_pipe_defaultCell p.default hd)
      (no_pipe_optionsCell p.options ho) hs
  · rw [escapeSpec_eq]
    apply String.ext
    simp only [renderPropRow, String.data_append, List.append_assoc,
      List.cons_append, List.nil_append]

/-- Witness for C1 at the example record of the spec. -/
theorem c1_five_columns_witness :
    unescapedPipes (renderPropRow exampleRecord) = 6
      ∧ (∃ u v, renderPropRow exampleRecord
          = u ++ ("`" ++ escapeSpec exampleRecord.type ++ "`") ++ v)
      ∧ escapePipes "default | primary" = "default \\| primary" :=
  c1_five_columns exampleRecord (by decide)
    (fun s h => by
      have hs := Option.some.inj h
      subst hs
      decide)
    (fun os h => by
      have hos := Option.some.inj h
      subst hos
      decide)
    (by decide)

/-- Claim C2, counterexample: a present-but-empty `default` is falsy in
JavaScript, so the Default cell is empty although the field is present;
the row is byte-identical to the row of the record with `default`
absent. -/
theorem c2_counterexample :
    emptyDefaultRecord.default ≠ none
      ∧ defaultCell emptyDefaultRecord.default = ""
      ∧ renderPropRow emptyDefaultRecord = renderPropRow absentDefaultRecord := by
  decide

/-- Claim C2 (amended): the Default cell is empty iff the `default` field
is absent or is the empty string; otherwise it is the literal value
wrapped in inline-code markers; and a record with no `default` and no
`options` renders exactly two empty cells with no placeholder text. -/
theorem c2_default_cell (p : PropertyRecord) :
    (defaultCell p.default = "" ↔ (p.default = none ∨ p.default = some ""))
      ∧ (∀ s, p.default = some s → s ≠ "" → defaultCell p.default = "`" ++ s ++ "`")
      ∧ (p.default = none → p.options = none →
          renderPropRow p = "| `" ++ p.name ++ "` | `" ++ escapePipes p.type
            ++ "` |  |  | " ++ p.description ++ " |") := by
  refine ⟨?_, ?_, ?_⟩
  · cases hd : p.default with
    | none => simp [defaultCell]
    | some s =>
      by_cases hs : s = ""
      · subst hs; simp [defaultCell]
      · simp only [defaultCell, if_neg hs]
        constructor
        · intro hempty
          exact absurd hempty (wrap_ne_empty s)
        · intro hor
          rcases hor with hnone | hsome
          · exact absurd hnone (by simp)
          · exact absurd (Option.some.inj hsome) hs
  · intro s hsome hne
    rw [hsome]
    simp [defaultCell, hne]
  · intro h1 h2
    apply String.ext
    simp only [renderPropRow, h1, h2, defaultCell, optionsCell,
      String.data_append, List.append_assoc, List.cons_append, List.nil_append]

/-- Witness for C2 at concrete records. -/
theorem c2_default_cell_witness :
    defaultCell (some "default") = "`" ++ "default" ++ "`"
      ∧ renderPropRow absentDefaultRecord
        = "| `" ++ absentDefaultRecord.name ++ "` | `"
          ++ escapePipes absentDefaultRecord.type ++ "` |  |  | "
          ++ absentDefaultRecord.description ++ " |" :=
  ⟨(c2_default_cell exampleRecord).2.1 "default" rfl (by decide),
    (c2_default_cell absentDefaultRecord).2.2 rfl rfl⟩

/-- Claim C3: the `type` field is the only field the renderer transforms —
the row equals the template with the type escaped (spec-side escape) and
the name, default, options and description contents inserted as-is; in
particular the description appears verbatim (unescaped) in the row, and so
does the name. -/
theorem c3_description_verbatim (p : PropertyRecord) :
    renderPropRow p
      = "| `" ++ p.name ++ "` | `" ++ escapeSpec p.type ++ "` | "
        ++ defaultCell p.default ++ " | " ++ optionsCell p.options
        ++ " | " ++ p.description ++ " |"
      ∧ (∃ u v, renderPropRow p = u ++ p.description ++ v)
      ∧ (∃ u v, renderPropRow p = u ++ p.name ++ v) := by
  refine ⟨by rw [escapeSpec_eq]; rfl, ?_, ?_⟩
  · refine ⟨"| `" ++ p.name ++ "` | `" ++ escapePipes p.type ++ "` | "
      ++ defaultCell p.default ++ " | " ++ optionsCell p.options ++ " | ", " |", ?_⟩
    apply String.ext
    simp only [renderPropRow, String.data_append, List.append_assoc,
      List.cons_append, List.nil_append]
  · refine ⟨"| `", "` | `" ++ escapePipes p.type ++ "` | "
      ++ defaultCell p.default ++ " | " ++ optionsCell p.options
      ++ " | " ++ p.description ++ " |", ?_⟩
    apply String.ext
    simp only [renderPropRow, String.data_append, List.append_assoc,
      List.cons_append, List.nil_append]

/-- Claim C4: the output is the preamble followed by one block per
component, in catalog order (the left fold of the source loop equals the
preamble followed by the ordered concatenation of the per-component
blocks); the block count equals the record count; the empty catalog yields
the preamble alone; and within each block the table rows are the
`props` sequence mapped in order and joined with newlines. -/
theorem c4_catalog_structure (cat : Catalog) :
    renderCatalog cat = preamble ++ concatBlocks (cat.components.map renderComponent)
      ∧ (cat.components.map renderComponent).length = cat.components.length
      ∧ renderCatalog ⟨[]⟩ = preamble
      ∧ ∀ c : ComponentRecord, renderComponent c
          = componentHead c ++ jsJoin "\n" (c.props.map renderPropRow) ++ componentTail c :=
  ⟨foldl_append_blocks cat.components preamble, by simp, rfl, fun c => rfl⟩

/-- Claim C5: the Options cell is empty when `options` is absent, and for
a present non-empty `options` it equals the spec-side cell: all values,
in order, each wrapped in inline-code markers and joined with a comma
separator; `["default", "primary"]` renders as ``  `default`, `primary` ``. -/
theorem c5_options_cell (p : PropertyRecord) :
    (p.options = none → optionsCell p.options = "")
      ∧ (∀ os, p.options = some os → os ≠ [] →
          optionsCell p.options = optionsSpecCell os)
      ∧ optionsCell (some ["default", "primary"]) = "`default`, `primary`" := by
  refine ⟨fun h => by rw [h]; rfl, ?_, by decide⟩
  intro os hsome hne
  rw [hsome]
  cases os with
  | nil => exact absurd rfl hne
  | cons a t =>
    show "`" ++ jsJoin "`, `" (a :: t) ++ "`" = optionsSpecCell (a :: t)
    exact jsJoin_wrap t a

/-- Witness for C5 at the example options of the spec. -/
theorem c5_options_cell_witness :
    optionsCell exampleRecord.options = optionsSpecCell ["default", "primary"] :=
  (c5_options_cell exampleRecord).2.1 ["default", "primary"] rfl (by decide)

/-- Claim C6: a component with an empty `props` sequence renders a block
whose table is the fixed five-column header and delimiter row only, with
zero data rows. -/
theorem c6_header_only (c : ComponentRecord) (h : c.props = []) :
    renderComponent c = componentHead c ++ componentTail c
      ∧ c.props.map renderPropRow = []
      ∧ (∃ w, componentHead c
          = w ++ "| Name | Type | Default | Options | Description |\n| --- | --- | --- | --- | --- |\n") := by
  refine ⟨?_, by rw [h]; rfl, ?_⟩
  · show componentHead c ++ jsJoin "\n" (c.props.map renderPropRow)
      ++ componentTail c = _
    rw [h]
    show componentHead c ++ "" ++ componentTail c = _
    rw [String.append_empty]
  · refine ⟨"\n## " ++ c.name ++ "\n\n<details>\n<summary>View details for "
      ++ c.name ++ "</summary>\n\n**Description:** " ++ c.description
      ++ "\n\n**Import:**\n```typescript\n" ++ c.jsImport ++ "\n```\n\n**Props:**\n\n", ?_⟩
    apply String.ext
    simp only [componentHead, String.data_append, List.append_assoc,
      List.cons_append, List.nil_append]

/-- Witness for C6 at a concrete component with no properties. -/
theorem c6_header_only_witness :
    renderComponent noPropsRecord = componentHead noPropsRecord ++ componentTail noPropsRecord
      ∧ noPropsRecord.props.map renderPropRow = [] :=
  ⟨(c6_header_only noPropsRecord rfl).1, (c6_header_only noPropsRecord rfl).2.1⟩

/-- Claim C7: rendering is total over well-formed input — on any
structurally valid raw catalog the raw render (which models every way the
source could throw: a missing `components`, a missing `props`, a missing
`type`) succeeds, and its value is the pure render of the denoted typed
catalog; the renderer has no error outcomes of its own beyond the missing
required fields, which belong to the LoadError domain of the Loader. -/
theorem c7_total_on_valid (rc : RawCatalog) (h : ValidCatalog rc) :
    renderRawCatalog rc = some (renderCatalog (toCatalog rc)) := by
  obtain ⟨hc, hv⟩ := h
  cases hcs : rc.components with
  | none => rw [hcs] at hc; simp at hc
  | some cs =>
    rw [hcs] at hv
    have hblocks := renderRawComponents_valid cs (fun c hcm => hv c hcm)
    have step1 : renderRawCatalog rc
        = (match renderRawComponents cs with
          | none => none
          | some blocks => some (blocks.foldl (fun acc b => acc ++ b) preamble)) := by
      unfold renderRawCatalog
      rw [hcs]
    rw [step1, hblocks]
    show some _ = some _
    congr 1
    simp only [renderCatalog, toCatalog, hcs, Option.getD_some, List.foldl_map,
      Function.comp_apply]

/-- Witness for C7 at a concrete structurally valid raw catalog. -/
theorem c7_total_on_valid_witness :
    renderRawCatalog rawSampleCatalog
      = some (renderCatalog (toCatalog rawSampleCatalog)) :=
  c7_total_on_valid rawSampleCatalog
    (by
      refine ⟨rfl, fun c hc => ?_⟩
      have hc' : c = rawSampleComponent := List.mem_singleton.mp hc
      subst hc'
      refine ⟨rfl, rfl, rfl, rfl, rfl, fun p hp => ?_⟩
      have hp' : p = rawSampleProp := List.mem_singleton.mp hp
      subst hp'
      exact ⟨rfl, rfl, rfl⟩)

/-- Claim C8: rendering is deterministic — the output is a function of the
Catalog alone (the embedding is a pure function of the catalog; no other
state enters the template). -/
theorem c8_deterministic (a b : Catalog) (h : a = b) :
    renderCatalog a = renderCatalog b := congrArg renderCatalog h

/-- Witness for C8: rendering the same catalog twice gives identical
output. -/
theorem c8_deterministic_witness :
    renderCatalog sampleCatalog = renderCatalog sampleCatalog :=
  c8_deterministic sampleCatalog sampleCatalog rfl

/-- Claim C9: a present-but-empty `options` is truthy in JavaScript, so
its cell is two adjacent inline-code markers, unlike the genuinely empty
cell of an absent `options`. -/
theorem c9_empty_options_cell :
    optionsCell (some ([] : List String)) = "``"
      ∧ optionsCell (none : Option (List String)) = ""
      ∧ emptyOptionsRecord.options = some []
      ∧ renderPropRow emptyOptionsRecord = "| `variant` | `string` |  | `` | v |"
      ∧ ("``" : String) ≠ "" := by decide

/-- Claim C10: the type escaping inserts a backslash before every pipe,
including already-escaped ones, so it is not idempotent: on any type
containing a pipe, applying it twice differs from applying it once, and
the two-character sequence backslash-pipe escapes to
backslash-backslash-pipe. -/
theorem c10_escape_not_idempotent (s : String) (h : '|' ∈ s.data) :
    escapePipes (escapePipes s) ≠ escapePipes s
      ∧ escapePipes "\\|" = "\\\\|" := by
  refine ⟨?_, by decide⟩
  intro heq
  have hdata : escList (escList s.data) = escList s.data := congrArg String.data heq
  have hlen := congrArg List.length hdata
  rw [escList_length, escList_length, escList_count] at hlen
  have hpos : 0 < s.data.count '|' := List.count_pos_iff.mpr h
  omega

/-- Witness for C10 at the two-character type backslash-pipe. -/
theorem c10_escape_not_idempotent_witness :
    escapePipes (escapePipes "\\|") ≠ escapePipes "\\|"
      ∧ escapePipes "\\|" = "\\\\|" :=
  c10_escape_not_idempotent "\\|" (by decide)
